import Mathlib

/-!
Shallow embedding of the transit simulation core of the Smart Bus Nepal
repository (two variants).  The embedded functions are:

* the per-bus body of the 100 ms setInterval tick callback of the
  interval-timer variant (App.jsx of that variant), acting on one bus
  record with fields index, nextIndex, progress, stopTimer, lat, lng;
* findNearestStop of the same variant (strict-less-than scan with an
  Infinity-initialised running minimum);
* calculateETA of the same variant (forward walk along the cyclic route
  accumulating Euclidean segment lengths and 20-tick dwell penalties);
* calculateFare of the animation-frame variant
  (direct lookup, JavaScript or-fallback to the reverse lookup, or 0).

Numbers are modelled by the rationals (the JavaScript sources compute with
floating point; the 0.01 progress increment, the coordinates and the fares
are decimal literals, rendered here exactly).  The square root used in
segment lengths lives in the reals.
-/

namespace SmartBus

/-- A bus stop record, as in stops.json: a name and planar coordinates. -/
structure Stop where
  name : String
  lat : ℚ
  lng : ℚ
deriving DecidableEq, Repr

/-- One entry of the busPositions array of the interval-timer variant:
destructured by the tick callback into index, nextIndex, progress and
stopTimer, with the rendered position lat and lng. -/
structure BusState where
  id : String
  index : ℕ
  nextIndex : ℕ
  progress : ℚ
  stopTimer : ℕ
  lat : ℚ
  lng : ℚ
deriving DecidableEq, Repr

/-- Array indexing stops[i] of the source; out-of-range access is modelled
by a dummy stop (the sources only index in range, via mod routeLength). -/
def stopAt (stops : List Stop) (i : ℕ) : Stop :=
  stops.getD i ⟨"", 0, 0⟩

/-- The body of the setInterval tick callback of the interval-timer
variant, for one bus.  Mirrors the source line by line: from and to are
read at the pre-tick indices; a bus with stopTimer below 20 only has its
stopTimer incremented; otherwise progress advances by 0.01 and, when the
advanced progress reaches 1, the indices move on cyclically and progress
and stopTimer reset to 0; lat and lng are then recomputed from the
pre-tick from and to stops at the new progress. -/
def tick (stops : List Stop) (b : BusState) : BusState :=
  let f := stopAt stops b.index
  let t := stopAt stops b.nextIndex
  if b.stopTimer < 20 then
    { b with stopTimer := b.stopTimer + 1 }
  else
    let p1 := b.progress + 1 / 100
    let newIndex := if 1 ≤ p1 then b.nextIndex else b.index
    let newNextIndex := if 1 ≤ p1 then (b.nextIndex + 1) % stops.length else b.nextIndex
    let newProgress := if 1 ≤ p1 then 0 else p1
    let newTimer := if 1 ≤ p1 then 0 else b.stopTimer
    { b with
      lat := f.lat + (t.lat - f.lat) * newProgress
      lng := f.lng + (t.lng - f.lng) * newProgress
      index := newIndex
      nextIndex := newNextIndex
      progress := newProgress
      stopTimer := newTimer }

/-- Unfolding of a dwell tick (stopTimer below 20). -/
lemma tick_dwell (stops : List Stop) (b : BusState) (h : b.stopTimer < 20) :
    tick stops b = { b with stopTimer := b.stopTimer + 1 } := by
  simp [tick, h]

/-- Unfolding of a wrap tick: the bus is past its dwell and the advanced
progress reaches 1. -/
lemma tick_wrap (stops : List Stop) (b : BusState) (h1 : 20 ≤ b.stopTimer)
    (h2 : 1 ≤ b.progress + 1 / 100) :
    tick stops b =
      { b with
        lat := (stopAt stops b.index).lat
        lng := (stopAt stops b.index).lng
        index := b.nextIndex
        nextIndex := (b.nextIndex + 1) % stops.length
        progress := 0
        stopTimer := 0 } := by
  simp only [tick, if_neg (not_lt.mpr h1), if_pos h2]
  simp

/-- Unfolding of an in-transit tick: past the dwell, advanced progress
still below 1. -/
lemma tick_transit (stops : List Stop) (b : BusState) (h1 : 20 ≤ b.stopTimer)
    (h2 : b.progress + 1 / 100 < 1) :
    tick stops b =
      { b with
        lat := (stopAt stops b.index).lat +
          ((stopAt stops b.nextIndex).lat - (stopAt stops b.index).lat) *
            (b.progress + 1 / 100)
        lng := (stopAt stops b.index).lng +
          ((stopAt stops b.nextIndex).lng - (stopAt stops b.index).lng) *
            (b.progress + 1 / 100)
        progress := b.progress + 1 / 100 } := by
  simp only [tick, if_neg (not_lt.mpr h1), if_neg (not_le.mpr h2)]

/-- Euclidean segment length between two stops, Math.sqrt of the sum of
squared coordinate differences, as computed inside calculateETA and
findNearestStop of the interval-timer variant. -/
noncomputable def segLen (a b : Stop) : ℝ :=
  Real.sqrt ((((b.lat - a.lat) ^ 2 + (b.lng - a.lng) ^ 2 : ℚ) : ℝ))

/-- The while loop of calculateETA of the interval-timer variant, with an
explicit fuel bound.  The source loop has no bound: while the stop at
nextIndex is not the target it accumulates the full segment length and a
20-tick dwell penalty and advances the indices cyclically.  A result of
none for the given fuel means the source loop has not terminated within
that many iterations; when the target name is present among the stops the
loop exits within routeLength iterations, so the caller passes
stops.length + 1 as fuel and a none there models source-level divergence. -/
noncomputable def etaLoop (stops : List Stop) (target : String) :
    ℕ → ℕ → ℕ → ℝ → ℕ → Option (ℝ × ℕ)
  | 0, _, _, _, _ => none
  | fuel + 1, index, nextIndex, distance, pauseTicks =>
    if (stopAt stops nextIndex).name = target then
      some (distance, pauseTicks)
    else
      etaLoop stops target fuel nextIndex ((nextIndex + 1) % stops.length)
        (distance + segLen (stopAt stops index) (stopAt stops nextIndex))
        (pauseTicks + 20)

/-- calculateETA of the interval-timer variant: the forward walk above,
then the remaining fraction of the current segment, then
Math.round (Math.ceil (distance * 100 + stopPauseTicks * 0.1)); Math.round
of the integer Math.ceil already returns is that integer, so the result is
the ceiling itself.  A none result models the infinite loop the source
runs into when the target name is absent from the route. -/
noncomputable def calculateETA (stops : List Stop) (b : BusState) (target : String) :
    Option ℤ :=
  match etaLoop stops target (stops.length + 1) b.index b.nextIndex 0 0 with
  | none => none
  | some (dist, pause) =>
    some ⌈(dist + segLen (stopAt stops b.index) (stopAt stops b.nextIndex) *
      (1 - (b.progress : ℝ))) * 100 + (pause : ℝ) * (1 / 10)⌉

/-- Comparison dist < minDist of findNearestStop, where minDist starts at
Infinity (modelled by none): every distance beats Infinity, and otherwise
the source compares with strict less-than. -/
def beats (x : ℚ) : Option ℚ → Bool
  | none => true
  | some m => decide (x < m)

/-- The forEach scan of findNearestStop of the interval-timer variant,
carrying the running nearest stop and running minimum distance.  The
distance function is abstracted: the source computes Math.sqrt of the sum
of squared coordinate differences to the user, and that value enters the
scan only through the strict comparison in beats. -/
def nearestLoop (d : Stop → ℚ) : List Stop → Stop → Option ℚ → Stop
  | [], nearest, _ => nearest
  | s :: rest, nearest, minDist =>
    if beats (d s) minDist then
      nearestLoop d rest s (some (d s))
    else
      nearestLoop d rest nearest minDist

/-- findNearestStop of the interval-timer variant: nearest starts at
stops[0], minDist at Infinity, then the scan runs over the whole table
(including stops[0] itself) and the name of the final nearest stop is
returned.  The empty-table case is vacuous in the source (the table is a
nonempty static import). -/
def findNearestStop (d : Stop → ℚ) (stops : List Stop) : String :=
  match stops with
  | [] => ""
  | s0 :: _ => (nearestLoop d stops s0 none).name

/-- Squared Euclidean distance of a stop from user coordinates; the
source ranks stops by Math.sqrt of this quantity, and square root is
strictly monotone on nonnegatives, so ranking by this function selects
the same stop. -/
def distSq (ulat ulng : ℚ) (s : Stop) : ℚ :=
  (s.lat - ulat) ^ 2 + (s.lng - ulng) ^ 2

/-- A two-level fare table, modelling the JSON fares object of the
animation-frame variant. -/
abbrev FareTable := List (String × List (String × ℚ))

/-- Lookup of row[k] in an inner fare row. -/
def lookupInner (row : List (String × ℚ)) (k : String) : Option ℚ :=
  match row.find? (fun p => p.1 == k) with
  | none => none
  | some p => some p.2

/-- Optional-chaining lookup faresData[a]?.[b] of the animation-frame
variant. -/
def lookupFare (f : FareTable) (a b : String) : Option ℚ :=
  match f.find? (fun p => p.1 == a) with
  | none => none
  | some row => lookupInner row.2 b

/-- The JavaScript or-operator on a possibly missing fare amount: a
missing entry (undefined) and a stored 0 are both falsy and fall through
to the right operand. -/
def jsOrQ (x : Option ℚ) (y : ℚ) : ℚ :=
  match x with
  | none => y
  | some v => if v = 0 then y else v

/-- calculateFare of the animation-frame variant:
faresData[from]?.[to] or faresData[to]?.[from] or 0, with JavaScript
falsiness as in jsOrQ. -/
def calculateFare (f : FareTable) (a b : String) : ℚ :=
  jsOrQ (lookupFare f a b) (jsOrQ (lookupFare f b a) 0)

/-- A two-stop cyclic route with stops 1/200 degrees apart, used as a
concrete input below. -/
def routeAB : List Stop :=
  [⟨"A", 0, 0⟩, ⟨"B", 0, 1 / 200⟩]

/-- The three-stop example route of the specification:
A at (0,0), B at (0,1), C at (1,1). -/
def routeABC : List Stop :=
  [⟨"A", 0, 0⟩, ⟨"B", 0, 1⟩, ⟨"C", 1, 1⟩]

/-- A bus on routeAB just leaving its dwell at stop A, heading to B. -/
def busTransit : BusState :=
  ⟨"bus1", 0, 1, 0, 20, 0, 0⟩

/-- A bus on routeABC one transit tick away from wrapping at stop B. -/
def busWrap : BusState :=
  ⟨"bus2", 0, 1, 99 / 100, 20, 0, 99 / 100⟩

/-- A bus on routeABC still dwelling at stop A. -/
def busDwell : BusState :=
  ⟨"bus3", 0, 1, 0, 0, 0, 0⟩

/-- A fare table whose direct entry A to B stores 0 while the reverse
entry stores 5. -/
def fareZeroTable : FareTable :=
  [("A", [("B", 0)]), ("B", [("A", 5)])]

/-- The fare table of the specification example: only A to B is present,
with amount 15. -/
def fareFifteenTable : FareTable :=
  [("A", [("B", 15)])]

/-- One tick preserves the simulation invariant: progress in [0,1) and
stopTimer at most 20. -/
lemma tick_preserves_inv (stops : List Stop) (b : BusState)
    (h : 0 ≤ b.progress ∧ b.progress < 1 ∧ b.stopTimer ≤ 20) :
    0 ≤ (tick stops b).progress ∧ (tick stops b).progress < 1 ∧
      (tick stops b).stopTimer ≤ 20 := by
  obtain ⟨h0, h1, h2⟩ := h
  by_cases hd : b.stopTimer < 20
  · rw [tick_dwell stops b hd]
    exact ⟨h0, h1, by show b.stopTimer + 1 ≤ 20; omega⟩
  · push_neg at hd
    by_cases hw : 1 ≤ b.progress + 1 / 100
    · rw [tick_wrap stops b hd hw]
      norm_num
    · push_neg at hw
      rw [tick_transit stops b hd hw]
      refine ⟨by linarith, hw, h2⟩

/-- C1: for every route with at least 2 stops and every initial bus state
with progress 0 and stopTimer 0, after any number n of ticks the progress
stays in [0,1) and the stopTimer never exceeds the 20-tick dwell
constant. -/
theorem progress_dwell_invariant (stops : List Stop) (b : BusState)
    (_hlen : 2 ≤ stops.length) (hp : b.progress = 0) (ht : b.stopTimer = 0) :
    ∀ n : ℕ, 0 ≤ ((tick stops)^[n] b).progress ∧
      ((tick stops)^[n] b).progress < 1 ∧
      ((tick stops)^[n] b).stopTimer ≤ 20 := by
  intro n
  induction n with
  | zero => refine ⟨?_, ?_, ?_⟩ <;> simp [hp, ht]
  | succ k ih =>
    rw [Function.iterate_succ_apply']
    exact tick_preserves_inv stops _ ih

/-- Witness for C1 at the three-stop example route, a freshly started bus
and 25 ticks. -/
theorem progress_dwell_invariant_witness :
    2 ≤ routeABC.length ∧ busDwell.progress = 0 ∧ busDwell.stopTimer = 0 ∧
      (0 ≤ ((tick routeABC)^[25] busDwell).progress ∧
        ((tick routeABC)^[25] busDwell).progress < 1 ∧
        ((tick routeABC)^[25] busDwell).stopTimer ≤ 20) :=
  ⟨by decide, rfl, rfl,
    progress_dwell_invariant routeABC busDwell (by decide) rfl rfl 25⟩

/-- C6: on a tick where a non-dwelling bus's advanced progress reaches 1,
the tick moves index to the old nextIndex, nextIndex to the cyclic
successor, and resets progress and stopTimer to 0. -/
theorem wrap_tick_updates (stops : List Stop) (b : BusState)
    (h1 : 20 ≤ b.stopTimer) (h2 : 1 ≤ b.progress + 1 / 100) :
    (tick stops b).index = b.nextIndex ∧
    (tick stops b).nextIndex = (b.nextIndex + 1) % stops.length ∧
    (tick stops b).progress = 0 ∧
    (tick stops b).stopTimer = 0 := by
  rw [tick_wrap stops b h1 h2]
  exact ⟨rfl, rfl, rfl, rfl⟩

/-- Witness for C6 at the wrapping bus of the three-stop example route. -/
theorem wrap_tick_updates_witness :
    20 ≤ busWrap.stopTimer ∧ 1 ≤ busWrap.progress + 1 / 100 ∧
      ((tick routeABC busWrap).index = busWrap.nextIndex ∧
        (tick routeABC busWrap).nextIndex = (busWrap.nextIndex + 1) % routeABC.length ∧
        (tick routeABC busWrap).progress = 0 ∧
        (tick routeABC busWrap).stopTimer = 0) :=
  ⟨by decide, by norm_num [busWrap], wrap_tick_updates routeABC busWrap (by decide)
    (by norm_num [busWrap])⟩

/-- C7: on a tick where a bus is still dwelling, the tick increments the
stopTimer by exactly 1 and leaves position, progress and both route
indices unchanged. -/
theorem dwell_tick_frame (stops : List Stop) (b : BusState) (h : b.stopTimer < 20) :
    (tick stops b).stopTimer = b.stopTimer + 1 ∧
    (tick stops b).lat = b.lat ∧ (tick stops b).lng = b.lng ∧
    (tick stops b).progress = b.progress ∧
    (tick stops b).index = b.index ∧
    (tick stops b).nextIndex = b.nextIndex := by
  rw [tick_dwell stops b h]
  exact ⟨rfl, rfl, rfl, rfl, rfl, rfl⟩

/-- Witness for C7 at the dwelling bus of the three-stop example route. -/
theorem dwell_tick_frame_witness :
    busDwell.stopTimer < 20 ∧
      ((tick routeABC busDwell).stopTimer = busDwell.stopTimer + 1 ∧
        (tick routeABC busDwell).lat = busDwell.lat ∧
        (tick routeABC busDwell).lng = busDwell.lng ∧
        (tick routeABC busDwell).progress = busDwell.progress ∧
        (tick routeABC busDwell).index = busDwell.index ∧
        (tick routeABC busDwell).nextIndex = busDwell.nextIndex) :=
  ⟨by decide, dwell_tick_frame routeABC busDwell (by decide)⟩

/-- During an unbroken dwell of k further ticks the position is frozen and
the stopTimer counts up by k. -/
lemma dwell_retention (stops : List Stop) :
    ∀ (k : ℕ) (s : BusState), s.stopTimer + k ≤ 20 →
      ((tick stops)^[k] s).lat = s.lat ∧
      ((tick stops)^[k] s).lng = s.lng ∧
      ((tick stops)^[k] s).stopTimer = s.stopTimer + k := by
  intro k
  induction k with
  | zero => intro s _; exact ⟨rfl, rfl, rfl⟩
  | succ m ih =>
    intro s h
    have hlt : s.stopTimer < 20 := by omega
    rw [Function.iterate_succ_apply, tick_dwell stops s hlt]
    obtain ⟨l1, l2, l3⟩ := ih { s with stopTimer := s.stopTimer + 1 }
      (by show s.stopTimer + 1 + m ≤ 20; omega)
    refine ⟨l1, l2, ?_⟩
    rw [l3]
    show s.stopTimer + 1 + m = s.stopTimer + (m + 1)
    omega

/-- C9: on a wrap tick the recomputed position is the interpolation at
progress 0 over the pre-wrap segment, i.e. the coordinates of the stop at
the pre-wrap index (the stop the bus departed from, not the one it just
arrived at), and the position keeps that value throughout the following
20-tick dwell. -/
theorem wrap_position_retained (stops : List Stop) (b : BusState)
    (h1 : 20 ≤ b.stopTimer) (h2 : 1 ≤ b.progress + 1 / 100) :
    (tick stops b).lat = (stopAt stops b.index).lat ∧
    (tick stops b).lng = (stopAt stops b.index).lng ∧
    ∀ k : ℕ, k ≤ 20 →
      ((tick stops)^[k] (tick stops b)).lat = (stopAt stops b.index).lat ∧
      ((tick stops)^[k] (tick stops b)).lng = (stopAt stops b.index).lng := by
  have hw := tick_wrap stops b h1 h2
  have hlat : (tick stops b).lat = (stopAt stops b.index).lat := by rw [hw]
  have hlng : (tick stops b).lng = (stopAt stops b.index).lng := by rw [hw]
  have htimer : (tick stops b).stopTimer = 0 := by rw [hw]
  refine ⟨hlat, hlng, ?_⟩
  intro k hk
  obtain ⟨l1, l2, _⟩ := dwell_retention stops k (tick stops b) (by omega)
  exact ⟨by rw [l1, hlat], by rw [l2, hlng]⟩

/-- Witness for C9 at the wrapping bus of the three-stop example route,
sampling the retained position at the end of the 20-tick dwell. -/
theorem wrap_position_retained_witness :
    20 ≤ busWrap.stopTimer ∧ 1 ≤ busWrap.progress + 1 / 100 ∧
      (tick routeABC busWrap).lat = (stopAt routeABC busWrap.index).lat ∧
      ((tick routeABC)^[20] (tick routeABC busWrap)).lng =
        (stopAt routeABC busWrap.index).lng :=
  ⟨by decide, by norm_num [busWrap],
    (wrap_position_retained routeABC busWrap (by decide) (by norm_num [busWrap])).1,
    ((wrap_position_retained routeABC busWrap (by decide) (by norm_num [busWrap])).2.2 20
      (by decide)).2⟩

/-- C5 fails on the code: on the wrap tick of the specification's
three-stop example route, the post-tick index is 1 (stop B at (0,1)), the
post-tick progress is 0, yet the recomputed position is (0,0), the
coordinates of stop A the bus departed from, so the position does not
equal the interpolation at the post-tick indices and progress. -/
theorem wrap_position_mismatch :
    (tick routeABC busWrap).progress = 0 ∧
    (tick routeABC busWrap).index = 1 ∧
    (tick routeABC busWrap).lat = 0 ∧
    (tick routeABC busWrap).lng = 0 ∧
    (stopAt routeABC 1).lat = 0 ∧
    (stopAt routeABC 1).lng = 1 ∧
    (tick routeABC busWrap).lng ≠
      (stopAt routeABC ((tick routeABC busWrap).index)).lng := by
  have h1 : 20 ≤ busWrap.stopTimer := by decide
  have h2 : 1 ≤ busWrap.progress + 1 / 100 := by norm_num [busWrap]
  rw [tick_wrap routeABC busWrap h1 h2]
  norm_num [busWrap, routeABC, stopAt]

/-- Indexing a cons cell at a successor index. -/
lemma stopAt_cons_succ (s : Stop) (L : List Stop) (i : ℕ) :
    stopAt (s :: L) (i + 1) = stopAt L i := by
  simp [stopAt]

/-- Indexing a cons cell at index zero. -/
lemma stopAt_cons_zero (s : Stop) (L : List Stop) : stopAt (s :: L) 0 = s := rfl

/-- In-range indexing lands in the list. -/
lemma stopAt_mem (L : List Stop) (i : ℕ) (h : i < L.length) : stopAt L i ∈ L := by
  rw [stopAt, List.getD_eq_getElem L _ h]
  exact List.getElem_mem h

/-- Specification of the findNearestStop scan once the running minimum is
the distance of the running nearest stop: the scan either keeps the
current stop because nothing in the remaining list is strictly closer, or
returns the first stop of the remaining list that realises the overall
minimum, every earlier list entry being strictly farther. -/
lemma nearestLoop_spec (d : Stop → ℚ) :
    ∀ (L : List Stop) (cur : Stop),
      (nearestLoop d L cur (some (d cur)) = cur ∧ ∀ s ∈ L, d cur ≤ d s) ∨
      (∃ j, j < L.length ∧
        nearestLoop d L cur (some (d cur)) = stopAt L j ∧
        d (stopAt L j) < d cur ∧
        (∀ i, i < L.length → d (stopAt L j) ≤ d (stopAt L i)) ∧
        (∀ i, i < j → d (stopAt L j) < d (stopAt L i))) := by
  intro L
  induction L with
  | nil => intro cur; left; exact ⟨rfl, by simp⟩
  | cons s rest ih =>
    intro cur
    by_cases hs : d s < d cur
    · have hunf : nearestLoop d (s :: rest) cur (some (d cur)) =
          nearestLoop d rest s (some (d s)) := by
        simp [nearestLoop, beats, hs]
      rcases ih s with ⟨heq, hall⟩ | ⟨j, hj, heq, hlt, hmin, hstrict⟩
      · right
        refine ⟨0, by simp, by rw [hunf, heq, stopAt_cons_zero], ?_, ?_, ?_⟩
        · rw [stopAt_cons_zero]; exact hs
        · intro i hi
          rw [stopAt_cons_zero]
          cases i with
          | zero => rw [stopAt_cons_zero]
          | succ m =>
            rw [stopAt_cons_succ]
            exact hall _ (stopAt_mem rest m (by simpa using hi))
        · intro i hi; omega
      · right
        refine ⟨j + 1, by simpa using hj, ?_, ?_, ?_, ?_⟩
        · rw [hunf, heq, stopAt_cons_succ]
        · rw [stopAt_cons_succ]; exact lt_trans hlt hs
        · intro i hi
          rw [stopAt_cons_succ]
          cases i with
          | zero => rw [stopAt_cons_zero]; exact le_of_lt hlt
          | succ m => rw [stopAt_cons_succ]; exact hmin m (by simpa using hi)
        · intro i hi
          rw [stopAt_cons_succ]
          cases i with
          | zero => rw [stopAt_cons_zero]; exact hlt
          | succ m => rw [stopAt_cons_succ]; exact hstrict m (by omega)
    · have hunf : nearestLoop d (s :: rest) cur (some (d cur)) =
          nearestLoop d rest cur (some (d cur)) := by
        simp [nearestLoop, beats, hs]
      push_neg at hs
      rcases ih cur with ⟨heq, hall⟩ | ⟨j, hj, heq, hlt, hmin, hstrict⟩
      · left
        refine ⟨by rw [hunf, heq], ?_⟩
        intro t ht
        rcases List.mem_cons.mp ht with rfl | htr
        · exact hs
        · exact hall t htr
      · right
        refine ⟨j + 1, by simpa using hj, ?_, ?_, ?_, ?_⟩
        · rw [hunf, heq, stopAt_cons_succ]
        · rw [stopAt_cons_succ]; exact hlt
        · intro i hi
          rw [stopAt_cons_succ]
          cases i with
          | zero => rw [stopAt_cons_zero]; exact le_of_lt (lt_of_lt_of_le hlt hs)
          | succ m => rw [stopAt_cons_succ]; exact hmin m (by simpa using hi)
        · intro i hi
          rw [stopAt_cons_succ]
          cases i with
          | zero => rw [stopAt_cons_zero]; exact lt_of_lt_of_le hlt hs
          | succ m => rw [stopAt_cons_succ]; exact hstrict m (by omega)

/-- C8: for every nonempty stop table and any distance ranking, the
proximity locator returns the earliest stop attaining the minimum
distance: a later stop is chosen only when it is strictly closer than
every earlier stop, so ties go to the first minimum. -/
theorem findNearestStop_first_min (d : Stop → ℚ) (stops : List Stop)
    (h : stops ≠ []) :
    ∃ j, j < stops.length ∧
      findNearestStop d stops = (stopAt stops j).name ∧
      (∀ i, i < stops.length → d (stopAt stops j) ≤ d (stopAt stops i)) ∧
      (∀ i, i < j → d (stopAt stops j) < d (stopAt stops i)) := by
  obtain ⟨s0, rest, rfl⟩ := List.exists_cons_of_ne_nil h
  have hstart : findNearestStop d (s0 :: rest) =
      (nearestLoop d rest s0 (some (d s0))).name := by
    simp [findNearestStop, nearestLoop, beats]
  rcases nearestLoop_spec d rest s0 with ⟨heq, hall⟩ | ⟨j, hj, heq, hlt, hmin, hstrict⟩
  · refine ⟨0, by simp, by rw [hstart, heq, stopAt_cons_zero], ?_, ?_⟩
    · intro i hi
      rw [stopAt_cons_zero]
      cases i with
      | zero => rw [stopAt_cons_zero]
      | succ m =>
        rw [stopAt_cons_succ]
        exact hall _ (stopAt_mem rest m (by simpa using hi))
    · intro i hi; omega
  · refine ⟨j + 1, by simpa using hj, by rw [hstart, heq, stopAt_cons_succ], ?_, ?_⟩
    · intro i hi
      rw [stopAt_cons_succ]
      cases i with
      | zero => rw [stopAt_cons_zero]; exact le_of_lt hlt
      | succ m => rw [stopAt_cons_succ]; exact hmin m (by simpa using hi)
    · intro i hi
      rw [stopAt_cons_succ]
      cases i with
      | zero => rw [stopAt_cons_zero]; exact hlt
      | succ m => rw [stopAt_cons_succ]; exact hstrict m (by omega)

/-- Witness for C8: a three-stop table where the second and third stop tie
for the minimum squared distance to the user at (0,2); the locator must
pick the second stop, the first of the two minima. -/
theorem findNearestStop_first_min_witness :
    routeABC ≠ [] ∧
      (∃ j, j < routeABC.length ∧
        findNearestStop (distSq 0 2) routeABC = (stopAt routeABC j).name ∧
        (∀ i, i < routeABC.length →
          distSq 0 2 (stopAt routeABC j) ≤ distSq 0 2 (stopAt routeABC i)) ∧
        (∀ i, i < j → distSq 0 2 (stopAt routeABC j) < distSq 0 2 (stopAt routeABC i))) :=
  ⟨by decide, findNearestStop_first_min (distSq 0 2) routeABC (by decide)⟩

/-- C10: in the reverse-fallback variant a stored direct fare of 0 is
falsy, so the lookup falls through to a nonzero reverse entry. -/
theorem fare_zero_treated_absent (f : FareTable) (a b : String) (v : ℚ)
    (h1 : lookupFare f a b = some 0) (h2 : lookupFare f b a = some v)
    (h3 : v ≠ 0) :
    calculateFare f a b = v := by
  simp [calculateFare, h1, h2, jsOrQ, h3]

/-- Witness for C10 at the concrete table with a zero forward entry and a
reverse entry of 5. -/
theorem fare_zero_treated_absent_witness :
    lookupFare fareZeroTable "A" "B" = some 0 ∧
      lookupFare fareZeroTable "B" "A" = some 5 ∧ (5 : ℚ) ≠ 0 ∧
      calculateFare fareZeroTable "A" "B" = 5 :=
  ⟨by decide, by decide, by norm_num,
    fare_zero_treated_absent fareZeroTable "A" "B" 5 (by decide) (by decide)
      (by norm_num)⟩

/-- C4 as stated fails on the code: in the table with a stored direct
entry A to B of 0 and reverse entry 5, the direct entry is present yet
calculateFare returns the reverse amount 5, not the stored direct 0. -/
theorem fare_direct_zero_not_returned :
    lookupFare fareZeroTable "A" "B" = some 0 ∧
      calculateFare fareZeroTable "A" "B" = 5 ∧ (5 : ℚ) ≠ 0 := by
  refine ⟨by decide, by decide, by norm_num⟩

/-- C4 amended: calculateFare returns the direct entry when present and
nonzero, falls back to the reverse entry when the direct entry is absent
or stored as 0, and returns 0 when both directions are absent or 0. -/
theorem fare_lookup_fallback (f : FareTable) (a b : String) :
    (∀ v, lookupFare f a b = some v → v ≠ 0 → calculateFare f a b = v) ∧
    ((lookupFare f a b = none ∨ lookupFare f a b = some 0) →
      ∀ w, lookupFare f b a = some w → w ≠ 0 → calculateFare f a b = w) ∧
    ((lookupFare f a b = none ∨ lookupFare f a b = some 0) →
      (lookupFare f b a = none ∨ lookupFare f b a = some 0) →
      calculateFare f a b = 0) := by
  refine ⟨?_, ?_, ?_⟩
  · intro v hv hv0
    simp [calculateFare, hv, jsOrQ, hv0]
  · rintro (hd | hd) w hw hw0 <;> simp [calculateFare, hd, hw, jsOrQ, hw0]
  · rintro (hd | hd) (hr | hr) <;> simp [calculateFare, hd, hr, jsOrQ]

/-- Witness for C4 at the specification's example table with only an A to
B entry of 15: requesting fare from B to A yields 15 via the fallback. -/
theorem fare_lookup_fallback_witness :
    lookupFare fareFifteenTable "B" "A" = none ∧
      lookupFare fareFifteenTable "A" "B" = some 15 ∧ (15 : ℚ) ≠ 0 ∧
      calculateFare fareFifteenTable "B" "A" = 15 :=
  ⟨by decide, by decide, by norm_num,
    (fare_lookup_fallback fareFifteenTable "B" "A").2.1 (Or.inl (by decide)) 15
      (by decide) (by norm_num)⟩

/-- Segment lengths are square roots, hence nonnegative. -/
lemma segLen_nonneg (a b : Stop) : 0 ≤ segLen a b := Real.sqrt_nonneg _

/-- Evaluation rule for segLen when the squared displacement is a perfect
rational square. -/
lemma segLen_eq (a b : Stop) (q : ℚ) (hq : 0 ≤ q)
    (h : (b.lat - a.lat) ^ 2 + (b.lng - a.lng) ^ 2 = q ^ 2) :
    segLen a b = (q : ℝ) := by
  rw [segLen, h]
  push_cast
  exact Real.sqrt_sq (by exact_mod_cast hq)

/-- The segment of routeAB from stop A to stop B has length 1/200. -/
lemma segLen_routeAB : segLen (stopAt routeAB 0) (stopAt routeAB 1) = 1 / 200 := by
  have h := segLen_eq (stopAt routeAB 0) (stopAt routeAB 1) (1 / 200) (by norm_num)
    (by norm_num [stopAt, routeAB])
  rw [h]
  norm_num

/-- Unfolding calculateETA when the route walk terminates. -/
lemma calculateETA_eq_of_loop (stops : List Stop) (b : BusState) (target : String)
    (D : ℝ) (K : ℕ)
    (hE : etaLoop stops target (stops.length + 1) b.index b.nextIndex 0 0 = some (D, K)) :
    calculateETA stops b target =
      some ⌈(D + segLen (stopAt stops b.index) (stopAt stops b.nextIndex) *
        (1 - (b.progress : ℝ))) * 100 + (K : ℝ) * (1 / 10)⌉ := by
  unfold calculateETA
  rw [hE]

/-- Unfolding calculateETA when the route walk runs out of fuel. -/
lemma calculateETA_none_of_loop (stops : List Stop) (b : BusState) (target : String)
    (hE : etaLoop stops target (stops.length + 1) b.index b.nextIndex 0 0 = none) :
    calculateETA stops b target = none := by
  unfold calculateETA
  rw [hE]

/-- No stop of routeAB is named X. -/
lemma routeAB_name_ne (n : ℕ) : (stopAt routeAB n).name ≠ "X" := by
  match n with
  | 0 => decide
  | 1 => decide
  | m + 2 =>
    have h : routeAB.length ≤ m + 2 := by simp [routeAB]
    rw [stopAt, List.getD_eq_default _ _ h]
    decide

/-- C2 fails on the code: with the target name X absent from routeAB, the
while-loop guard of calculateETA never becomes false, so the walk finds
no exit at any iteration bound (the source loops forever instead of
failing with an InvalidTarget condition), and the embedded calculateETA
yields no number. -/
theorem eta_absent_target_diverges :
    (∀ (fuel i n : ℕ) (dist : ℝ) (p : ℕ),
      etaLoop routeAB "X" fuel i n dist p = none) ∧
    calculateETA routeAB busTransit "X" = none := by
  have hloop : ∀ (fuel i n : ℕ) (dist : ℝ) (p : ℕ),
      etaLoop routeAB "X" fuel i n dist p = none := by
    intro fuel
    induction fuel with
    | zero => intro i n dist p; rfl
    | succ m ih =>
      intro i n dist p
      show etaLoop routeAB "X" (m + 1) i n dist p = none
      rw [etaLoop, if_neg (routeAB_name_ne n)]
      exact ih _ _ _ _
  exact ⟨hloop, calculateETA_none_of_loop routeAB busTransit "X" (hloop _ _ _ _ _)⟩

/-- The walk of calculateETA on routeAB towards stop B, starting on the
segment from index 0 to index 1, exits immediately. -/
lemma etaLoop_routeAB_B : etaLoop routeAB "B" (routeAB.length + 1) 0 1 0 0 = some (0, 0) := by
  show etaLoop routeAB "B" (2 + 1) 0 1 0 0 = some (0, 0)
  rw [etaLoop, if_pos]
  rfl

/-- Closed form of calculateETA on routeAB for a bus on the segment from
stop A to stop B with target B. -/
lemma calculateETA_routeAB (b : BusState) (h0 : b.index = 0) (h1 : b.nextIndex = 1) :
    calculateETA routeAB b "B" =
      some ⌈(1 / 200 * (1 - (b.progress : ℝ))) * 100⌉ := by
  have hE : etaLoop routeAB "B" (routeAB.length + 1) b.index b.nextIndex 0 0 =
      some (0, 0) := by rw [h0, h1]; exact etaLoop_routeAB_B
  rw [calculateETA_eq_of_loop routeAB b "B" 0 0 hE, h0, h1, segLen_routeAB]
  congr 1
  push_cast
  ring_nf

/-- Concrete ETA of busTransit (progress 0) towards stop B: 1 minute. -/
lemma eta_busTransit_val : calculateETA routeAB busTransit "B" = some 1 := by
  rw [calculateETA_routeAB busTransit rfl rfl]
  have h : (1 / 200 * (1 - ((busTransit.progress : ℚ) : ℝ))) * 100 = 1 / 2 := by
    norm_num [busTransit]
  rw [h]
  norm_num [Int.ceil_eq_iff]

/-- Concrete ETA one transit tick later (progress 1/100): still 1 minute. -/
lemma eta_busTransit_tick_val :
    calculateETA routeAB (tick routeAB busTransit) "B" = some 1 := by
  have ht := tick_transit routeAB busTransit (by decide) (by norm_num [busTransit])
  have hidx : (tick routeAB busTransit).index = 0 := by rw [ht]; rfl
  have hnext : (tick routeAB busTransit).nextIndex = 1 := by rw [ht]; rfl
  have hprog : ((tick routeAB busTransit).progress : ℝ) = 1 / 100 := by
    rw [ht]
    show ((busTransit.progress + 1 / 100 : ℚ) : ℝ) = 1 / 100
    norm_num [busTransit]
  rw [calculateETA_routeAB _ hidx hnext, hprog]
  have h : ((1 : ℝ) / 200 * (1 - 1 / 100)) * 100 = 99 / 200 := by norm_num
  rw [h]
  norm_num [Int.ceil_eq_iff]

/-- C3 as stated fails on the code: on routeAB the bus in transit at
progress 0 and the same bus one transit tick later (progress 0.01) both
get ETA 1 towards the upcoming stop B, because the per-tick decrease of
the rounded-up minute count can be smaller than one; the ETA does not
strictly decrease from one tick to the next. -/
theorem eta_not_strictly_decreasing :
    20 ≤ busTransit.stopTimer ∧ busTransit.progress + 1 / 100 < 1 ∧
      calculateETA routeAB busTransit "B" = some 1 ∧
      calculateETA routeAB (tick routeAB busTransit) "B" = some 1 :=
  ⟨by decide, by norm_num [busTransit], eta_busTransit_val, eta_busTransit_tick_val⟩

/-- C3 amended: for a fixed bus and fixed target, over a transit tick
(past the dwell, no wrap) the computed ETA never increases; it can stay
constant because of the ceiling rounding. -/
theorem eta_weakly_decreasing (stops : List Stop) (b : BusState) (target : String)
    (e1 e2 : ℤ) (h1 : 20 ≤ b.stopTimer) (h2 : b.progress + 1 / 100 < 1)
    (h3 : calculateETA stops b target = some e1)
    (h4 : calculateETA stops (tick stops b) target = some e2) :
    e2 ≤ e1 := by
  have ht := tick_transit stops b h1 h2
  have hidx : (tick stops b).index = b.index := by rw [ht]
  have hnext : (tick stops b).nextIndex = b.nextIndex := by rw [ht]
  have hprog : (tick stops b).progress = b.progress + 1 / 100 := by rw [ht]
  cases hE : etaLoop stops target (stops.length + 1) b.index b.nextIndex 0 0 with
  | none =>
    rw [calculateETA_none_of_loop stops b target hE] at h3
    cases h3
  | some dp =>
    obtain ⟨D, K⟩ := dp
    have hE2 : etaLoop stops target (stops.length + 1) (tick stops b).index
        (tick stops b).nextIndex 0 0 = some (D, K) := by
      rw [hidx, hnext]; exact hE
    rw [calculateETA_eq_of_loop stops b target D K hE] at h3
    rw [calculateETA_eq_of_loop stops (tick stops b) target D K hE2, hidx, hnext,
      hprog] at h4
    have hL : 0 ≤ segLen (stopAt stops b.index) (stopAt stops b.nextIndex) :=
      segLen_nonneg _ _
    rw [Option.some.injEq] at h3 h4
    rw [← h3, ← h4]
    apply Int.ceil_le_ceil
    push_cast
    nlinarith [hL]

/-- Witness for C3 amended at busTransit on routeAB with target B. -/
theorem eta_weakly_decreasing_witness :
    20 ≤ busTransit.stopTimer ∧ busTransit.progress + 1 / 100 < 1 ∧ (1 : ℤ) ≤ 1 :=
  ⟨by decide, by norm_num [busTransit],
    eta_weakly_decreasing routeAB busTransit "B" 1 1 (by decide)
      (by norm_num [busTransit]) eta_busTransit_val eta_busTransit_tick_val⟩

end SmartBus
